import Mathlib

/-!
Shallow embedding of the merge pipeline of `src/main.py` (Video Merger API).

Durations and media timestamps are rationals.  Remote resources and decoded
media are identified by natural numbers ("content ids"); the environment
(`Env`) supplies the outcome of every effectful primitive the pipeline calls:
`download_file` (`Env.fetch`), `VideoFileClip` (`Env.decodeVideo`),
`AudioFileClip` (`Env.decodeAudio`) and `write_videofile` (`Env.encodeOk`).
The visual timeline is represented extensionally as a list of segments, each
a half-open portion `[lo, hi)` of a decoded source clip, and audio tracks as
a duration together with a sample function.  Every side effect the pipeline
performs (directory creation/removal, downloads, decoder handle open/close,
writing the output) is recorded, in program order, in an event trace.
-/

namespace MovieMerge

/-- A decoded video clip handle (moviepy `VideoFileClip`): the identity of the
decoded media stream and its duration in seconds. -/
structure VideoClip where
  media : Nat
  duration : ℚ
  deriving DecidableEq

/-- One contiguous piece of a visual timeline: the half-open interval
`[lo, hi)` of the source clip `src`. -/
structure Segment where
  src : Nat
  lo : ℚ
  hi : ℚ
  deriving DecidableEq

/-- Length of a segment. -/
def segLen (s : Segment) : ℚ := s.hi - s.lo

/-- Total duration of a timeline (sum of its segment lengths). -/
def segsDuration (segs : List Segment) : ℚ := (segs.map segLen).sum

/-- `concatenate_videoclips(clips)` (line 120): each clip contributes its full
extent, in the order supplied. -/
def concatClips (clips : List VideoClip) : List Segment :=
  clips.map (fun c => ⟨c.media, 0, c.duration⟩)

/-- `subclip(0, T)` on a concatenated timeline: keep exactly the first `T`
seconds, measured from the start of the timeline (`T` is assumed
nonnegative, as it is at the single call site, line 125). -/
def segTake (T : ℚ) : List Segment → List Segment
  | [] => []
  | s :: rest =>
    if segLen s ≤ T then s :: segTake (T - segLen s) rest
    else [⟨s.src, s.lo, s.lo + T⟩]

/-- The frame shown at global time `t` of a timeline: the source clip and the
local timestamp inside it (`none` past the end). -/
def frameAt : List Segment → ℚ → Option (Nat × ℚ)
  | [], _ => none
  | s :: rest, t =>
    if t < segLen s then some (s.src, s.lo + t) else frameAt rest (t - segLen s)

/-- Lines 119-125: concatenate the surviving clips and, if the result is
longer than `max_duration`, truncate to `[0, max_duration)`. -/
def buildTimeline (clips : List VideoClip) (maxDur : ℚ) : List Segment :=
  let segs := concatClips clips
  if maxDur < segsDuration segs then segTake maxDur segs else segs

/-- A decoded audio handle (moviepy `AudioFileClip` or a clip derived from
one): a duration and a sample function. -/
structure AudioTrack where
  dur : ℚ
  sample : ℚ → ℚ

/-- Nonnegative remainder of `t` modulo a (positive) period `d`. -/
def ratMod (t d : ℚ) : ℚ := t - d * ⌊t / d⌋

/-- `clip.loop(duration := D)` (lines 132-134): repeat the track's content
seamlessly until it covers `[0, D)`. -/
def audioLoop (a : AudioTrack) (D : ℚ) : AudioTrack :=
  ⟨D, fun t => a.sample (ratMod t a.dur)⟩

/-- `subclip(0, T)` on an audio track: same samples, duration `T`. -/
def audioSubclip (a : AudioTrack) (T : ℚ) : AudioTrack :=
  ⟨T, a.sample⟩

/-- `volumex(k)`: scale every sample by the factor `k`. -/
def volumex (a : AudioTrack) (k : ℚ) : AudioTrack :=
  ⟨a.dur, fun t => k * a.sample t⟩

/-- `CompositeAudioClip(tracks)`: duration is the largest track end, and the
sample at `t` is the sum of the samples of the tracks still playing at `t`. -/
def compositeAudio (tracks : List AudioTrack) : AudioTrack :=
  ⟨(tracks.map (·.dur)).foldr max 0,
   fun t => (tracks.map (fun a => if 0 ≤ t ∧ t < a.dur then a.sample t else 0)).sum⟩

/-- Lines 129-137: the background track is looped up to the video duration
when shorter, and otherwise cut to `[0, D)`. -/
def bgAdjust (a : AudioTrack) (D : ℚ) : AudioTrack :=
  if a.dur < D then audioLoop a D else audioSubclip a D

/-- Lines 139-142: the narration track is cut to `[0, D)` when longer than
the video, and otherwise used as is (it is never looped). -/
def narrAdjust (a : AudioTrack) (D : ℚ) : AudioTrack :=
  if a.dur > D then audioSubclip a D else a

/-- The request body of the `/merge` endpoint (pydantic model `MergeRequest`,
lines 51-55). -/
structure MergeRequest where
  videos : List String
  background_audio : String
  narration : String
  max_duration : Int := 600

/-- A raw request body before pydantic validation: each declared field either
present or absent. -/
structure RawMergeRequest where
  videos : Option (List String)
  background_audio : Option String
  narration : Option String
  max_duration : Option Int

/-- Pydantic validation of `MergeRequest` (lines 51-55): `videos`,
`background_audio` and `narration` have no default and are required;
`max_duration` defaults to `600`. -/
def parseMergeRequest (raw : RawMergeRequest) : Option MergeRequest :=
  match raw.videos, raw.background_audio, raw.narration with
  | some vs, some bg, some narr => some ⟨vs, bg, narr, raw.max_duration.getD 600⟩
  | _, _, _ => none

/-- Observable side effects of one pipeline run, in program order. -/
inductive Ev where
  | dirCreated
  | fetched (url : String)
  | openVideo (i : Nat)
  | skipVideo (i : Nat)
  | openAudioBg
  | openAudioNarr
  | audioFail
  | wrote (filename : String)
  | closeFinal
  | closeVideo (i : Nat)
  | closeAudioBg
  | closeAudioNarr
  | removeDir
  deriving DecidableEq

/-- The failures `process_videos` can raise. -/
inductive PErr where
  | fetchFailure (url : String)
  | noUsableVideo
  | encodeFailure
  deriving DecidableEq

deriving instance DecidableEq for Except

/-- The effectful primitives of the pipeline, supplied by the outside world. -/
structure Env where
  fetch : String → Option Nat
  decodeVideo : Nat → Option VideoClip
  decodeAudio : Nat → Option AudioTrack
  encodeOk : Bool

/-- Lines 91-96: download the video sources in order; the first failing URL
aborts with that URL, files downloaded before it remain (their events are
kept in the trace). -/
def downloadTrace (env : Env) : List String → List Ev × Except String (List Nat)
  | [] => ([], .ok [])
  | u :: us =>
    match env.fetch u with
    | none => ([], .error u)
    | some c =>
      let r := downloadTrace env us
      (Ev.fetched u :: r.1, r.2.map (c :: ·))

/-- Lines 105-114: try to decode each downloaded video in order (the `i`-th
source has index `i`); a failure is logged (`skipVideo`) and the clip
skipped, a success opens a handle (`openVideo`) and keeps the clip. -/
def decodeTrace (env : Env) (i : Nat) : List Nat → List Ev × List (Nat × VideoClip)
  | [] => ([], [])
  | c :: cs =>
    let r := decodeTrace env (i + 1) cs
    match env.decodeVideo c with
    | some clip => (Ev.openVideo i :: r.1, (i, clip) :: r.2)
    | none => (Ev.skipVideo i :: r.1, r.2)

/-- Lines 128-155 (the audio `try` block): open and duration-adjust the
background track, open and duration-adjust the narration track, attenuate
the background by the fixed factor `0.3`, and superimpose the two; any
failure inside the block is swallowed and the video keeps no audio. -/
def audioPhase (env : Env) (bgc narrc : Nat) (D : ℚ) : List Ev × Option AudioTrack :=
  match env.decodeAudio bgc with
  | none => ([Ev.audioFail], none)
  | some bg =>
    match env.decodeAudio narrc with
    | none => ([Ev.openAudioBg, Ev.audioFail], none)
    | some narr =>
      ([Ev.openAudioBg, Ev.openAudioNarr],
       some (compositeAudio [volumex (bgAdjust bg D) (3 / 10), narrAdjust narr D]))

/-- The encoded output: generated filename, visual timeline, optional mixed
audio track. -/
structure OutputInfo where
  filename : String
  video : List Segment
  audio : Option AudioTrack

/-- The observable result of one `process_videos` run: its outcome, whether
the job directory still exists when the function terminates, and the event
trace. -/
structure RunResult where
  outcome : Except PErr OutputInfo
  jobDirExists : Bool
  trace : List Ev

/-- `process_videos` (lines 83-186).  `jobId` is the generated `uuid4` token.
Every exit path ends by removing the job directory (line 177 on success,
lines 184-185 in the `except` block). -/
def process_videos (env : Env) (req : MergeRequest) (jobId : String) : RunResult :=
  let dl := downloadTrace env req.videos
  match dl.2 with
  | .error u => ⟨.error (.fetchFailure u), false, Ev.dirCreated :: dl.1 ++ [Ev.removeDir]⟩
  | .ok contents =>
    match env.fetch req.background_audio with
    | none =>
      ⟨.error (.fetchFailure req.background_audio), false,
       Ev.dirCreated :: dl.1 ++ [Ev.removeDir]⟩
    | some bgc =>
      match env.fetch req.narration with
      | none =>
        ⟨.error (.fetchFailure req.narration), false,
         Ev.dirCreated :: dl.1 ++ [Ev.fetched req.background_audio, Ev.removeDir]⟩
      | some narrc =>
        let dec := decodeTrace env 0 contents
        let base := Ev.dirCreated :: dl.1 ++
          [Ev.fetched req.background_audio, Ev.fetched req.narration] ++ dec.1
        match dec.2 with
        | [] => ⟨.error .noUsableVideo, false, base ++ [Ev.removeDir]⟩
        | d :: ds =>
          let timeline := buildTimeline ((d :: ds).map (·.2)) (req.max_duration : ℚ)
          let ap := audioPhase env bgc narrc (segsDuration timeline)
          if env.encodeOk then
            let fn := "merged_video_" ++ jobId ++ ".mp4"
            ⟨.ok ⟨fn, timeline, ap.2⟩, false,
             base ++ ap.1 ++ Ev.wrote fn :: Ev.closeFinal ::
               ((d :: ds).map (fun p => Ev.closeVideo p.1) ++ [Ev.removeDir])⟩
          else
            ⟨.error .encodeFailure, false, base ++ ap.1 ++ [Ev.removeDir]⟩

/-- `process_videos_with_local_narration` (lines 282-384): identical to
`process_videos` except that the narration is not downloaded — its content
(`narrContent`) is already on local disk. -/
def process_videos_with_local_narration (env : Env) (req : MergeRequest)
    (narrContent : Nat) (jobId : String) : RunResult :=
  let dl := downloadTrace env req.videos
  match dl.2 with
  | .error u => ⟨.error (.fetchFailure u), false, Ev.dirCreated :: dl.1 ++ [Ev.removeDir]⟩
  | .ok contents =>
    match env.fetch req.background_audio with
    | none =>
      ⟨.error (.fetchFailure req.background_audio), false,
       Ev.dirCreated :: dl.1 ++ [Ev.removeDir]⟩
    | some bgc =>
      let dec := decodeTrace env 0 contents
      let base := Ev.dirCreated :: dl.1 ++ [Ev.fetched req.background_audio] ++ dec.1
      match dec.2 with
      | [] => ⟨.error .noUsableVideo, false, base ++ [Ev.removeDir]⟩
      | d :: ds =>
        let timeline := buildTimeline ((d :: ds).map (·.2)) (req.max_duration : ℚ)
        let ap := audioPhase env bgc narrContent (segsDuration timeline)
        if env.encodeOk then
          let fn := "merged_video_" ++ jobId ++ ".mp4"
          ⟨.ok ⟨fn, timeline, ap.2⟩, false,
           base ++ ap.1 ++ Ev.wrote fn :: Ev.closeFinal ::
             ((d :: ds).map (fun p => Ev.closeVideo p.1) ++ [Ev.removeDir])⟩
        else
          ⟨.error .encodeFailure, false, base ++ ap.1 ++ [Ev.removeDir]⟩

/-- The observable result of one endpoint invocation: the HTTP-level outcome,
whether the endpoint's own job directory (the one holding the uploaded
narration, lines 234-241) still exists once the request is over, and the
inner pipeline run. -/
structure EndpointResult where
  response : Except PErr OutputInfo
  endpointDirExists : Bool
  inner : RunResult

/-- `merge_videos_with_file` (lines 220-279): saves the uploaded narration in
a fresh job directory of its own, runs the pipeline, and on success registers
a background task (lines 259-267) that deletes the output file and that
directory after the stream is delivered; on failure it re-raises as a 500
without removing its own directory. -/
def merge_videos_with_file (env : Env) (videos : List String)
    (background_audio : String) (max_duration : Int) (narrContent : Nat)
    (procJobId : String) : EndpointResult :=
  let req : MergeRequest := ⟨videos, background_audio, "", max_duration⟩
  let r := process_videos_with_local_narration env req narrContent procJobId
  match r.outcome with
  | .ok o => ⟨.ok o, false, r⟩
  | .error e => ⟨.error e, true, r⟩

/-- `merge_videos` (lines 188-217): the `/merge` endpoint creates no job
directory of its own; cleanup of the output file is scheduled after
delivery. -/
def merge_videos (env : Env) (req : MergeRequest) (jobId : String) : EndpointResult :=
  let r := process_videos env req jobId
  ⟨r.outcome, false, r⟩

/-- Boolean success test on an `Except` (no decidable equality is available
on `OutputInfo`, whose audio carries a sample function). -/
def exceptIsOk : Except PErr OutputInfo → Bool
  | .ok _ => true
  | .error _ => false

/-- `a` occurs strictly before `b` in the list `tr`. -/
def Precedes (a b : Ev) (tr : List Ev) : Prop :=
  ∃ t1 t2 t3, tr = t1 ++ a :: t2 ++ b :: t3

/-- Test for a download event. -/
def evIsFetch : Ev → Bool
  | .fetched _ => true
  | _ => false

/-- Normalise the one event that names the generated output file, so traces
of runs that differ only in the job identifier can be compared. -/
def scrub : Ev → Ev
  | .wrote _ => .wrote ""
  | e => e

/-- The job-identifier-independent part of a run's outcome. -/
def contentOutcome (r : RunResult) : Except PErr (List Segment × Option AudioTrack) :=
  r.outcome.map (fun o => (o.video, o.audio))

lemma segsDuration_nil : segsDuration [] = 0 := rfl

lemma segsDuration_cons (s : Segment) (rest : List Segment) :
    segsDuration (s :: rest) = segLen s + segsDuration rest := by
  simp [segsDuration]

lemma segsDuration_nonneg (segs : List Segment) (h : ∀ s ∈ segs, 0 ≤ segLen s) :
    0 ≤ segsDuration segs := by
  refine List.sum_nonneg ?_
  intro x hx
  rcases List.mem_map.mp hx with ⟨s, hs, rfl⟩
  exact h s hs

lemma segTake_duration (T : ℚ) (segs : List Segment) (hT : 0 ≤ T)
    (hpos : ∀ s ∈ segs, 0 ≤ segLen s) :
    segsDuration (segTake T segs) = min T (segsDuration segs) := by
  induction segs generalizing T with
  | nil =>
    simp [segTake, segsDuration_nil, min_eq_right hT]
  | cons s rest ih =>
    by_cases h : segLen s ≤ T
    · have hrest : ∀ x ∈ rest, 0 ≤ segLen x := fun x hx => hpos x (List.mem_cons_of_mem _ hx)
      have hT2 : 0 ≤ T - segLen s := by linarith
      simp only [segTake, if_pos h]
      rw [segsDuration_cons, segsDuration_cons, ih (T - segLen s) hT2 hrest]
      have hadd : segLen s + (T - segLen s) = T := by ring
      rw [← min_add_add_left, hadd]
    · push_neg at h
      have hsum : 0 ≤ segsDuration rest :=
        segsDuration_nonneg rest (fun x hx => hpos x (List.mem_cons_of_mem _ hx))
      simp only [segTake, if_neg (not_le.mpr h)]
      have hL : segsDuration [(⟨s.src, s.lo, s.lo + T⟩ : Segment)] = T := by
        simp [segsDuration, segLen]
      rw [hL, segsDuration_cons]
      have : T ≤ segLen s + segsDuration rest := by linarith
      exact (min_eq_left this).symm

lemma frameAt_segTake (T : ℚ) (segs : List Segment) :
    ∀ t, 0 ≤ t → t < segsDuration (segTake T segs) →
      frameAt (segTake T segs) t = frameAt segs t := by
  induction segs generalizing T with
  | nil => intro t _ h; simp [segTake] at h ⊢
  | cons s rest ih =>
    intro t ht hlt
    by_cases h : segLen s ≤ T
    · simp only [segTake, if_pos h] at hlt ⊢
      by_cases h2 : t < segLen s
      · simp [frameAt, if_pos h2]
      · rw [segsDuration_cons] at hlt
        simp only [frameAt, if_neg h2]
        exact ih (T - segLen s) (t - segLen s) (by linarith [not_lt.mp h2]) (by linarith)
    · push_neg at h
      simp only [segTake, if_neg (not_le.mpr h)] at hlt ⊢
      have hltT : t < T := by
        simpa [segsDuration, segLen] using hlt
      have hts : t < segLen s := lt_trans hltT h
      have c1 : t < segLen (⟨s.src, s.lo, s.lo + T⟩ : Segment) := by
        simpa [segLen] using hltT
      simp only [frameAt]
      rw [if_pos c1, if_pos hts]

lemma segsDuration_concatClips (clips : List VideoClip) :
    segsDuration (concatClips clips) = (clips.map (·.duration)).sum := by
  have hfun : (segLen ∘ fun c => (⟨c.media, 0, c.duration⟩ : Segment)) =
      fun c : VideoClip => c.duration := by
    funext c
    simp [segLen]
  rw [segsDuration, concatClips, List.map_map, hfun]

lemma concatClips_nonneg (clips : List VideoClip) (h : ∀ c ∈ clips, 0 ≤ c.duration) :
    ∀ s ∈ concatClips clips, 0 ≤ segLen s := by
  intro s hs
  rcases List.mem_map.mp hs with ⟨c, hc, rfl⟩
  simpa [segLen] using h c hc

lemma buildTimeline_duration (clips : List VideoClip) (maxDur : ℚ)
    (hmax : 0 ≤ maxDur) (h : ∀ c ∈ clips, 0 ≤ c.duration) :
    segsDuration (buildTimeline clips maxDur) =
      min ((clips.map (·.duration)).sum) maxDur := by
  unfold buildTimeline
  by_cases hlt : maxDur < segsDuration (concatClips clips)
  · simp only [if_pos hlt]
    rw [segTake_duration maxDur _ hmax (concatClips_nonneg _ h)]
    rw [segsDuration_concatClips] at hlt ⊢
    rw [min_eq_left (le_of_lt hlt), min_eq_right (le_of_lt hlt)]
  · simp only [if_neg hlt]
    push_neg at hlt
    rw [segsDuration_concatClips] at hlt ⊢
    exact (min_eq_left hlt).symm

lemma frameAt_buildTimeline (clips : List VideoClip) (maxDur : ℚ) (t : ℚ)
    (ht : 0 ≤ t) (hlt : t < segsDuration (buildTimeline clips maxDur)) :
    frameAt (buildTimeline clips maxDur) t = frameAt (concatClips clips) t := by
  unfold buildTimeline at hlt ⊢
  by_cases h : maxDur < segsDuration (concatClips clips)
  · simp only [if_pos h] at hlt ⊢
    exact frameAt_segTake maxDur _ t ht hlt
  · simp only [if_neg h]

lemma downloadTrace_error_of_exists (env : Env) (urls : List String)
    (h : ∃ u ∈ urls, env.fetch u = none) :
    ∃ v tr, downloadTrace env urls = (tr, .error v) ∧ env.fetch v = none ∧ v ∈ urls := by
  induction urls with
  | nil => simp at h
  | cons u us ih =>
    rcases h with ⟨w, hw, hwn⟩
    match hu : env.fetch u with
    | none =>
      exact ⟨u, [], by simp [downloadTrace, hu], hu, List.mem_cons_self u us⟩
    | some c =>
      have hwus : w ∈ us := by
        rcases List.mem_cons.mp hw with rfl | h2
        · rw [hu] at hwn; cases hwn
        · exact h2
      rcases ih ⟨w, hwus, hwn⟩ with ⟨v, tr, heq, hvn, hvm⟩
      refine ⟨v, Ev.fetched u :: tr, ?_, hvn, List.mem_cons_of_mem _ hvm⟩
      simp [downloadTrace, hu, heq, Except.map]

lemma downloadTrace_fst_fetch (env : Env) (urls : List String) :
    ∀ e ∈ (downloadTrace env urls).1, ∃ u, e = Ev.fetched u := by
  induction urls with
  | nil => simp [downloadTrace]
  | cons u us ih =>
    intro e he
    match hu : env.fetch u with
    | none => simp [downloadTrace, hu] at he
    | some c =>
      simp only [downloadTrace, hu] at he
      rcases List.mem_cons.mp he with rfl | h2
      · exact ⟨u, rfl⟩
      · exact ih e h2

lemma decodeTrace_clips (env : Env) (cs : List Nat) :
    ∀ i, ((decodeTrace env i cs).2).map (·.2) = cs.filterMap env.decodeVideo := by
  induction cs with
  | nil => intro i; simp [decodeTrace]
  | cons c cs ih =>
    intro i
    match hc : env.decodeVideo c with
    | some clip => simp [decodeTrace, hc, List.filterMap_cons, ih (i + 1)]
    | none => simp [decodeTrace, hc, List.filterMap_cons, ih (i + 1)]

lemma decodeTrace_skip_mem (env : Env) (cs : List Nat) :
    ∀ i k (hk : k < cs.length), env.decodeVideo (cs.get ⟨k, hk⟩) = none →
      Ev.skipVideo (i + k) ∈ (decodeTrace env i cs).1 := by
  induction cs with
  | nil => intro i k hk; simp at hk
  | cons c cs ih =>
    intro i k hk hnone
    match k with
    | 0 =>
      simp only [List.get] at hnone
      simp [decodeTrace, hnone]
    | k + 1 =>
      simp only [List.get] at hnone
      have hmem := ih (i + 1) k (Nat.lt_of_succ_lt_succ hk) hnone
      have harith : i + 1 + k = i + (k + 1) := by omega
      rw [harith] at hmem
      match hc : env.decodeVideo c with
      | some clip => simp [decodeTrace, hc, hmem]
      | none => simp [decodeTrace, hc, hmem]

lemma decodeTrace_fst_shape (env : Env) (cs : List Nat) :
    ∀ i, ∀ e ∈ (decodeTrace env i cs).1,
      (∃ k, e = Ev.openVideo k) ∨ (∃ k, e = Ev.skipVideo k) := by
  induction cs with
  | nil => intro i; simp [decodeTrace]
  | cons c cs ih =>
    intro i e he
    match hc : env.decodeVideo c with
    | some clip =>
      simp only [decodeTrace, hc] at he
      rcases List.mem_cons.mp he with rfl | h2
      · exact Or.inl ⟨i, rfl⟩
      · exact ih (i + 1) e h2
    | none =>
      simp only [decodeTrace, hc] at he
      rcases List.mem_cons.mp he with rfl | h2
      · exact Or.inr ⟨i, rfl⟩
      · exact ih (i + 1) e h2

lemma decodeTrace_open_mem (env : Env) (cs : List Nat) :
    ∀ i k, Ev.openVideo k ∈ (decodeTrace env i cs).1 →
      k ∈ ((decodeTrace env i cs).2).map (·.1) := by
  induction cs with
  | nil => intro i k h; simp [decodeTrace] at h
  | cons c cs ih =>
    intro i k h
    match hc : env.decodeVideo c with
    | some clip =>
      simp only [decodeTrace, hc, List.map_cons] at h ⊢
      rcases List.mem_cons.mp h with heq | h2
      · rw [(Ev.openVideo.injEq _ _).mp heq]
        exact List.mem_cons_self _ _
      · exact List.mem_cons_of_mem _ (ih (i + 1) k h2)
    | none =>
      simp only [decodeTrace, hc] at h ⊢
      rcases List.mem_cons.mp h with heq | h2
      · exact Ev.noConfusion heq
      · exact ih (i + 1) k h2

lemma audioPhase_fst_shape (env : Env) (bgc narrc : Nat) (D : ℚ) :
    ∀ e ∈ (audioPhase env bgc narrc D).1,
      e = Ev.openAudioBg ∨ e = Ev.openAudioNarr ∨ e = Ev.audioFail := by
  intro e he
  unfold audioPhase at he
  match h1 : env.decodeAudio bgc with
  | none =>
    rw [h1] at he
    simp at he
    simp [he]
  | some bg =>
    rw [h1] at he
    match h2 : env.decodeAudio narrc with
    | none =>
      rw [h2] at he
      simp at he
      rcases he with rfl | rfl <;> simp
    | some narr =>
      rw [h2] at he
      simp at he
      rcases he with rfl | rfl <;> simp

lemma process_videos_run_ok (env : Env) (req : MergeRequest) (jobId : String)
    (tr : List Ev) (contents : List Nat) (bgc narrc : Nat)
    (dtr : List Ev) (d : Nat × VideoClip) (ds : List (Nat × VideoClip))
    (h1 : downloadTrace env req.videos = (tr, .ok contents))
    (h2 : env.fetch req.background_audio = some bgc)
    (h3 : env.fetch req.narration = some narrc)
    (h4 : decodeTrace env 0 contents = (dtr, d :: ds))
    (h6 : env.encodeOk = true) :
    process_videos env req jobId =
      ⟨.ok ⟨"merged_video_" ++ jobId ++ ".mp4",
            buildTimeline ((d :: ds).map (·.2)) (req.max_duration : ℚ),
            (audioPhase env bgc narrc
              (segsDuration (buildTimeline ((d :: ds).map (·.2)) (req.max_duration : ℚ)))).2⟩,
       false,
       (Ev.dirCreated :: (tr ++
          ([Ev.fetched req.background_audio, Ev.fetched req.narration] ++ dtr))) ++
        ((audioPhase env bgc narrc
            (segsDuration (buildTimeline ((d :: ds).map (·.2)) (req.max_duration : ℚ)))).1 ++
          (Ev.wrote ("merged_video_" ++ jobId ++ ".mp4") :: Ev.closeFinal ::
            ((d :: ds).map (fun p => Ev.closeVideo p.1) ++ [Ev.removeDir])))⟩ := by
  simp only [process_videos, h1, h2, h3, h4, h6, if_true, List.append_assoc,
    List.cons_append]

lemma process_videos_run_fetchVideoErr (env : Env) (req : MergeRequest) (jobId : String)
    (tr : List Ev) (u : String)
    (h1 : downloadTrace env req.videos = (tr, .error u)) :
    process_videos env req jobId =
      ⟨.error (.fetchFailure u), false, Ev.dirCreated :: (tr ++ [Ev.removeDir])⟩ := by
  simp only [process_videos, h1, List.cons_append]

lemma process_videos_run_fetchBgErr (env : Env) (req : MergeRequest) (jobId : String)
    (tr : List Ev) (contents : List Nat)
    (h1 : downloadTrace env req.videos = (tr, .ok contents))
    (h2 : env.fetch req.background_audio = none) :
    process_videos env req jobId =
      ⟨.error (.fetchFailure req.background_audio), false,
       Ev.dirCreated :: (tr ++ [Ev.removeDir])⟩ := by
  simp only [process_videos, h1, h2, List.cons_append]

lemma process_videos_run_fetchNarrErr (env : Env) (req : MergeRequest) (jobId : String)
    (tr : List Ev) (contents : List Nat) (bgc : Nat)
    (h1 : downloadTrace env req.videos = (tr, .ok contents))
    (h2 : env.fetch req.background_audio = some bgc)
    (h3 : env.fetch req.narration = none) :
    process_videos env req jobId =
      ⟨.error (.fetchFailure req.narration), false,
       Ev.dirCreated :: (tr ++ [Ev.fetched req.background_audio, Ev.removeDir])⟩ := by
  simp only [process_videos, h1, h2, h3, List.cons_append]

lemma process_videos_run_noUsable (env : Env) (req : MergeRequest) (jobId : String)
    (tr : List Ev) (contents : List Nat) (bgc narrc : Nat) (dtr : List Ev)
    (h1 : downloadTrace env req.videos = (tr, .ok contents))
    (h2 : env.fetch req.background_audio = some bgc)
    (h3 : env.fetch req.narration = some narrc)
    (h4 : decodeTrace env 0 contents = (dtr, [])) :
    process_videos env req jobId =
      ⟨.error .noUsableVideo, false,
       Ev.dirCreated :: (tr ++
         ([Ev.fetched req.background_audio, Ev.fetched req.narration] ++
           (dtr ++ [Ev.removeDir])))⟩ := by
  simp only [process_videos, h1, h2, h3, h4, List.append_assoc, List.cons_append]

lemma process_videos_run_encodeErr (env : Env) (req : MergeRequest) (jobId : String)
    (tr : List Ev) (contents : List Nat) (bgc narrc : Nat)
    (dtr : List Ev) (d : Nat × VideoClip) (ds : List (Nat × VideoClip))
    (h1 : downloadTrace env req.videos = (tr, .ok contents))
    (h2 : env.fetch req.background_audio = some bgc)
    (h3 : env.fetch req.narration = some narrc)
    (h4 : decodeTrace env 0 contents = (dtr, d :: ds))
    (h6 : env.encodeOk = false) :
    process_videos env req jobId =
      ⟨.error .encodeFailure, false,
       Ev.dirCreated :: (tr ++
         ([Ev.fetched req.background_audio, Ev.fetched req.narration] ++
           (dtr ++
             ((audioPhase env bgc narrc
                 (segsDuration (buildTimeline ((d :: ds).map (·.2))
                   (req.max_duration : ℚ)))).1 ++ [Ev.removeDir]))))⟩ := by
  simp only [process_videos, h1, h2, h3, h4, h6, if_false, Bool.false_eq_true,
    List.append_assoc, List.cons_append]

lemma local_narration_run_ok (env : Env) (req : MergeRequest) (nc : Nat) (jobId : String)
    (tr : List Ev) (contents : List Nat) (bgc : Nat)
    (dtr : List Ev) (d : Nat × VideoClip) (ds : List (Nat × VideoClip))
    (h1 : downloadTrace env req.videos = (tr, .ok contents))
    (h2 : env.fetch req.background_audio = some bgc)
    (h4 : decodeTrace env 0 contents = (dtr, d :: ds))
    (h6 : env.encodeOk = true) :
    process_videos_with_local_narration env req nc jobId =
      ⟨.ok ⟨"merged_video_" ++ jobId ++ ".mp4",
            buildTimeline ((d :: ds).map (·.2)) (req.max_duration : ℚ),
            (audioPhase env bgc nc
              (segsDuration (buildTimeline ((d :: ds).map (·.2)) (req.max_duration : ℚ)))).2⟩,
       false,
       Ev.dirCreated :: (tr ++
         ([Ev.fetched req.background_audio] ++
           (dtr ++
             ((audioPhase env bgc nc
                 (segsDuration (buildTimeline ((d :: ds).map (·.2))
                   (req.max_duration : ℚ)))).1 ++
               (Ev.wrote ("merged_video_" ++ jobId ++ ".mp4") :: Ev.closeFinal ::
                 ((d :: ds).map (fun p => Ev.closeVideo p.1) ++ [Ev.removeDir]))))))⟩ := by
  simp only [process_videos_with_local_narration, h1, h2, h4, h6, if_true,
    List.append_assoc, List.cons_append]

lemma local_narration_run_fetchVideoErr (env : Env) (req : MergeRequest) (nc : Nat)
    (jobId : String) (tr : List Ev) (u : String)
    (h1 : downloadTrace env req.videos = (tr, .error u)) :
    process_videos_with_local_narration env req nc jobId =
      ⟨.error (.fetchFailure u), false, Ev.dirCreated :: (tr ++ [Ev.removeDir])⟩ := by
  simp only [process_videos_with_local_narration, h1, List.cons_append]

lemma local_narration_run_fetchBgErr (env : Env) (req : MergeRequest) (nc : Nat)
    (jobId : String) (tr : List Ev) (contents : List Nat)
    (h1 : downloadTrace env req.videos = (tr, .ok contents))
    (h2 : env.fetch req.background_audio = none) :
    process_videos_with_local_narration env req nc jobId =
      ⟨.error (.fetchFailure req.background_audio), false,
       Ev.dirCreated :: (tr ++ [Ev.removeDir])⟩ := by
  simp only [process_videos_with_local_narration, h1, h2, List.cons_append]

lemma local_narration_run_noUsable (env : Env) (req : MergeRequest) (nc : Nat)
    (jobId : String) (tr : List Ev) (contents : List Nat) (bgc : Nat) (dtr : List Ev)
    (h1 : downloadTrace env req.videos = (tr, .ok contents))
    (h2 : env.fetch req.background_audio = some bgc)
    (h4 : decodeTrace env 0 contents = (dtr, [])) :
    process_videos_with_local_narration env req nc jobId =
      ⟨.error .noUsableVideo, false,
       Ev.dirCreated :: (tr ++
         ([Ev.fetched req.background_audio] ++ (dtr ++ [Ev.removeDir])))⟩ := by
  simp only [process_videos_with_local_narration, h1, h2, h4, List.append_assoc,
    List.cons_append]

lemma local_narration_run_encodeErr (env : Env) (req : MergeRequest) (nc : Nat)
    (jobId : String) (tr : List Ev) (contents : List Nat) (bgc : Nat)
    (dtr : List Ev) (d : Nat × VideoClip) (ds : List (Nat × VideoClip))
    (h1 : downloadTrace env req.videos = (tr, .ok contents))
    (h2 : env.fetch req.background_audio = some bgc)
    (h4 : decodeTrace env 0 contents = (dtr, d :: ds))
    (h6 : env.encodeOk = false) :
    process_videos_with_local_narration env req nc jobId =
      ⟨.error .encodeFailure, false,
       Ev.dirCreated :: (tr ++
         ([Ev.fetched req.background_audio] ++
           (dtr ++
             ((audioPhase env bgc nc
                 (segsDuration (buildTimeline ((d :: ds).map (·.2))
                   (req.max_duration : ℚ)))).1 ++ [Ev.removeDir]))))⟩ := by
  simp only [process_videos_with_local_narration, h1, h2, h4, h6, if_false,
    Bool.false_eq_true, List.append_assoc, List.cons_append]

/-- A concrete world: two decodable videos of 3s and 4s (a third source,
`"v2"`, downloads but does not decode), a 3s background track and a 5s
narration track, and a working encoder. -/
def envA : Env :=
  { fetch := fun u =>
      if u = "v0" then some 0 else if u = "v1" then some 1
      else if u = "v2" then some 2
      else if u = "bg" then some 10 else if u = "narr" then some 11 else none,
    decodeVideo := fun c =>
      if c = 0 then some ⟨0, 3⟩ else if c = 1 then some ⟨1, 4⟩ else none,
    decodeAudio := fun c =>
      if c = 10 then some ⟨3, fun _ => 2⟩
      else if c = 11 then some ⟨5, fun _ => 1⟩ else none,
    encodeOk := true }

/-- `envA` with the background-audio download failing. -/
def envC : Env :=
  { envA with fetch := fun u => if u = "bg" then none else envA.fetch u }

/-- `envA` with the first video download failing. -/
def envD : Env :=
  { envA with fetch := fun u => if u = "v0" then none else envA.fetch u }

/-- `envA` with the background audio downloading fine (content `99`) but
failing to decode. -/
def envE : Env :=
  { envA with fetch := fun u => if u = "bg" then some 99 else envA.fetch u }

/-- A well-formed request over the two good videos. -/
def reqA : MergeRequest := ⟨["v0", "v1"], "bg", "narr", 600⟩

/-- The same request with a maximum duration shorter than the 7s the two
clips add up to. -/
def reqT : MergeRequest := ⟨["v0", "v1"], "bg", "narr", 5⟩

/-- A request whose only video downloads but does not decode. -/
def reqBadVideos : MergeRequest := ⟨["v2"], "bg", "narr", 600⟩

/-- A request with one undecodable video in the middle. -/
def reqSkip : MergeRequest := ⟨["v0", "v2", "v1"], "bg", "narr", 600⟩

/-- C1: with at least one decodable video source (and the other pipeline
stages able to run), the final timeline is the truncation of the
concatenation of the surviving clips, its duration is
`min (sum of surviving durations) max_duration`, and every instant
`t ∈ [0, duration)` of the output shows exactly the frame the untruncated
concatenation shows at `t` — the cut is measured from the start of the
concatenated timeline, never from a clip boundary. -/
theorem spec_c1 (env : Env) (req : MergeRequest) (jobId : String)
    (tr : List Ev) (contents : List Nat) (bgc narrc : Nat)
    (h1 : downloadTrace env req.videos = (tr, .ok contents))
    (h2 : env.fetch req.background_audio = some bgc)
    (h3 : env.fetch req.narration = some narrc)
    (hne : contents.filterMap env.decodeVideo ≠ [])
    (hpos : ∀ c ∈ contents.filterMap env.decodeVideo, 0 ≤ c.duration)
    (hmax : 0 ≤ (req.max_duration : ℚ))
    (h6 : env.encodeOk = true) :
    ∃ o, (process_videos env req jobId).outcome = .ok o ∧
      o.video = buildTimeline (contents.filterMap env.decodeVideo) (req.max_duration : ℚ) ∧
      segsDuration o.video =
        min (((contents.filterMap env.decodeVideo).map (·.duration)).sum)
          ((req.max_duration : ℚ)) ∧
      ∀ t, 0 ≤ t → t < segsDuration o.video →
        frameAt o.video t = frameAt (concatClips (contents.filterMap env.decodeVideo)) t := by
  rcases hdec : decodeTrace env 0 contents with ⟨dtr, dec⟩
  have hclips := decodeTrace_clips env contents 0
  rw [hdec] at hclips
  cases dec with
  | nil => exact absurd (by simpa using hclips.symm) hne
  | cons d ds =>
    have hrun := process_videos_run_ok env req jobId tr contents bgc narrc dtr d ds
      h1 h2 h3 hdec h6
    simp only at hclips
    rw [hclips] at hrun
    refine ⟨_, by rw [hrun], rfl, ?_, ?_⟩
    · exact buildTimeline_duration _ _ hmax hpos
    · intro t ht hlt
      exact frameAt_buildTimeline _ _ t ht hlt

/-- Witness for C1: with two surviving clips of 3s and 4s and a maximum
duration of 5s, the output lasts `min (3+4) 5 = 5` seconds and agrees with
the concatenation on `[0, 5)`. -/
theorem spec_c1_witness :
    ∃ o, (process_videos envA reqT "job").outcome = .ok o ∧
      o.video = buildTimeline ([0, 1].filterMap envA.decodeVideo) ((reqT.max_duration : ℚ)) ∧
      segsDuration o.video =
        min ((([0, 1].filterMap envA.decodeVideo).map (·.duration)).sum)
          ((reqT.max_duration : ℚ)) ∧
      ∀ t, 0 ≤ t → t < segsDuration o.video →
        frameAt o.video t = frameAt (concatClips ([0, 1].filterMap envA.decodeVideo)) t :=
  spec_c1 envA reqT "job" [Ev.fetched "v0", Ev.fetched "v1"] [0, 1] 10 11
    (by decide) (by decide) (by decide) (by decide) (by decide) (by norm_num [reqT])
    (by decide)

/-- C2: (a) a failure to download any video source is fatal to the whole
request; (b) if every video source downloads but none decodes, the run
fails with the no-usable-video error; (c) a per-clip decode failure is
logged (`skipVideo` appears in the trace) and the clip skipped without
aborting the request. -/
theorem spec_c2 (env : Env) (req : MergeRequest) (jobId : String) :
    ((∃ u ∈ req.videos, env.fetch u = none) →
      ∃ v, env.fetch v = none ∧ v ∈ req.videos ∧
        (process_videos env req jobId).outcome = .error (.fetchFailure v)) ∧
    (∀ tr contents bgc narrc,
      downloadTrace env req.videos = (tr, .ok contents) →
      env.fetch req.background_audio = some bgc →
      env.fetch req.narration = some narrc →
      contents.filterMap env.decodeVideo = [] →
      (process_videos env req jobId).outcome = .error .noUsableVideo) ∧
    (∀ tr contents bgc narrc,
      downloadTrace env req.videos = (tr, .ok contents) →
      env.fetch req.background_audio = some bgc →
      env.fetch req.narration = some narrc →
      contents.filterMap env.decodeVideo ≠ [] →
      env.encodeOk = true →
      exceptIsOk (process_videos env req jobId).outcome = true ∧
      ∀ k (hk : k < contents.length),
        env.decodeVideo (contents.get ⟨k, hk⟩) = none →
        Ev.skipVideo k ∈ (process_videos env req jobId).trace) := by
  refine ⟨?_, ?_, ?_⟩
  · intro hex
    rcases downloadTrace_error_of_exists env req.videos hex with ⟨v, tr, heq, hvn, hvm⟩
    refine ⟨v, hvn, hvm, ?_⟩
    rw [process_videos_run_fetchVideoErr env req jobId tr v heq]
  · intro tr contents bgc narrc h1 h2 h3 hnil
    rcases hdec : decodeTrace env 0 contents with ⟨dtr, dec⟩
    have hclips := decodeTrace_clips env contents 0
    rw [hdec] at hclips
    cases dec with
    | nil => rw [process_videos_run_noUsable env req jobId tr contents bgc narrc dtr h1 h2 h3 hdec]
    | cons d ds =>
      rw [hnil] at hclips
      simp at hclips
  · intro tr contents bgc narrc h1 h2 h3 hne henc
    rcases hdec : decodeTrace env 0 contents with ⟨dtr, dec⟩
    have hclips := decodeTrace_clips env contents 0
    rw [hdec] at hclips
    cases dec with
    | nil => exact absurd (by simpa using hclips.symm) hne
    | cons d ds =>
      have hrun := process_videos_run_ok env req jobId tr contents bgc narrc dtr d ds
        h1 h2 h3 hdec henc
      constructor
      · rw [hrun]
        rfl
      · intro k hk hskip
        have hmem := decodeTrace_skip_mem env contents 0 k hk hskip
        rw [Nat.zero_add, hdec] at hmem
        have hmem2 : Ev.skipVideo k ∈ dtr := hmem
        rw [hrun]
        simp only [List.mem_cons, List.mem_append]
        tauto

/-- Witness for C2: with `envD` the first video fails to download and the
run aborts; with `reqBadVideos` the only video decodes to nothing and the
run fails with the no-usable-video error; with `reqSkip` the middle clip
fails to decode, its skip is logged, and the run still succeeds. -/
theorem spec_c2_witness :
    (∃ v, envD.fetch v = none ∧ v ∈ reqA.videos ∧
      (process_videos envD reqA "j").outcome = .error (.fetchFailure v)) ∧
    (process_videos envA reqBadVideos "j").outcome = .error .noUsableVideo ∧
    exceptIsOk (process_videos envA reqSkip "j").outcome = true ∧
    Ev.skipVideo 1 ∈ (process_videos envA reqSkip "j").trace := by
  have hskip := (spec_c2 envA reqSkip "j").2.2
    [Ev.fetched "v0", Ev.fetched "v2", Ev.fetched "v1"] [0, 2, 1] 10 11
    (by decide) (by decide) (by decide) (by decide) (by decide)
  exact ⟨(spec_c2 envD reqA "j").1 ⟨"v0", by decide, by decide⟩,
    (spec_c2 envA reqBadVideos "j").2.1 [Ev.fetched "v2"] [2] 10 11
      (by decide) (by decide) (by decide) (by decide),
    hskip.1,
    hskip.2 1 (by decide) (by decide)⟩

/-- C3 counterexample: in `envC` the two video sources download and decode
fine (there is a usable video source), yet the background-audio download
fails and the whole run aborts with a fetch failure — the download of the
background audio (line 100) sits outside the audio `try` block, so its
failure is fatal, contradicting the claim. -/
theorem spec_c3_counterexample :
    (envC.fetch "v0").isSome = true ∧ (envC.decodeVideo 0).isSome = true ∧
    envC.fetch "bg" = none ∧
    (process_videos envC reqA "j").outcome = .error (.fetchFailure "bg") := by
  refine ⟨rfl, rfl, rfl, ?_⟩
  rw [process_videos_run_fetchBgErr envC reqA "j" [Ev.fetched "v0", Ev.fetched "v1"]
    [0, 1] (by decide) (by decide)]
  rfl

/-- C3 as amended: with at least one usable video source, a failure to
DECODE the background audio never aborts the request — the run still
succeeds with a video-only output; a failure to FETCH the background audio,
however, aborts the whole request. -/
theorem spec_c3_fixed (env : Env) (req : MergeRequest) (jobId : String) :
    (∀ tr contents bgc narrc,
      downloadTrace env req.videos = (tr, .ok contents) →
      env.fetch req.background_audio = some bgc →
      env.fetch req.narration = some narrc →
      contents.filterMap env.decodeVideo ≠ [] →
      env.encodeOk = true →
      env.decodeAudio bgc = none →
      ∃ o, (process_videos env req jobId).outcome = .ok o ∧ o.audio = none) ∧
    (∀ tr contents,
      downloadTrace env req.videos = (tr, .ok contents) →
      env.fetch req.background_audio = none →
      (process_videos env req jobId).outcome =
        .error (.fetchFailure req.background_audio)) := by
  constructor
  · intro tr contents bgc narrc h1 h2 h3 hne henc hbgdec
    rcases hdec : decodeTrace env 0 contents with ⟨dtr, dec⟩
    have hclips := decodeTrace_clips env contents 0
    rw [hdec] at hclips
    cases dec with
    | nil => exact absurd (by simpa using hclips.symm) hne
    | cons d ds =>
      have hrun := process_videos_run_ok env req jobId tr contents bgc narrc dtr d ds
        h1 h2 h3 hdec henc
      refine ⟨_, by rw [hrun], ?_⟩
      show (audioPhase env bgc narrc _).2 = none
      simp [audioPhase, hbgdec]
  · intro tr contents h1 h2
    rw [process_videos_run_fetchBgErr env req jobId tr contents h1 h2]

/-- Witness for the amended C3: in `envE` the background audio downloads but
does not decode and the run still succeeds without audio; in `envC` the
background fetch fails and the run aborts. -/
theorem spec_c3_fixed_witness :
    (∃ o, (process_videos envE reqA "j").outcome = .ok o ∧ o.audio = none) ∧
    (process_videos envC reqA "j").outcome =
      .error (.fetchFailure reqA.background_audio) := by
  constructor
  · exact (spec_c3_fixed envE reqA "j").1 [Ev.fetched "v0", Ev.fetched "v1"] [0, 1]
      99 11 (by decide) (by decide) (by decide) (by decide) (by decide) rfl
  · exact (spec_c3_fixed envC reqA "j").2 [Ev.fetched "v0", Ev.fetched "v1"] [0, 1]
      (by decide) (by decide)

lemma bgAdjust_dur (a : AudioTrack) (D : ℚ) : (bgAdjust a D).dur = D := by
  unfold bgAdjust
  by_cases h : a.dur < D
  · simp [h, audioLoop]
  · simp [h, audioSubclip]

lemma narrAdjust_dur (a : AudioTrack) (D : ℚ) : (narrAdjust a D).dur = min a.dur D := by
  unfold narrAdjust
  by_cases h : a.dur > D
  · simp only [if_pos h, audioSubclip]
    exact (min_eq_right (le_of_lt h)).symm
  · simp only [if_neg h]
    exact (min_eq_left (not_lt.mp h)).symm

lemma narrAdjust_sample (a : AudioTrack) (D : ℚ) :
    (narrAdjust a D).sample = a.sample := by
  unfold narrAdjust
  by_cases h : a.dur > D
  · simp [h, audioSubclip]
  · simp [h]

lemma composite_pair_dur (bg narr : AudioTrack) (D : ℚ) (hD : 0 ≤ D) :
    (compositeAudio [volumex (bgAdjust bg D) (3 / 10), narrAdjust narr D]).dur = D := by
  simp only [compositeAudio, volumex, List.map_cons, List.map_nil, List.foldr_cons,
    List.foldr_nil, bgAdjust_dur, narrAdjust_dur]
  have h1 : max (min narr.dur D) 0 ≤ D := max_le (min_le_right _ _) hD
  exact max_eq_left h1

lemma composite_pair_sample (bg narr : AudioTrack) (D t : ℚ)
    (ht : 0 ≤ t) (hlt : t < D) :
    (compositeAudio [volumex (bgAdjust bg D) (3 / 10), narrAdjust narr D]).sample t =
      (3 / 10) * (bgAdjust bg D).sample t +
        (if t < min narr.dur D then narr.sample t else 0) := by
  simp only [compositeAudio, volumex, List.map_cons, List.map_nil, List.sum_cons,
    List.sum_nil, bgAdjust_dur, narrAdjust_dur, narrAdjust_sample]
  rw [if_pos ⟨ht, hlt⟩]
  by_cases h : t < min narr.dur D
  · rw [if_pos ⟨ht, h⟩, if_pos h]
    ring
  · rw [if_neg (fun hc => h hc.2), if_neg h]
    ring

/-- C4 counterexample: a narration track of natural duration 5 against a
timeline of duration 10 is NOT looped — lines 139-142 only trim narration
when it is too long — so its composited duration stays 5, not 10, and the
mixed track is background-only on `[5, 10)` (at `t = 7` the mix carries
only the attenuated background sample `0.3 * 2`). -/
theorem spec_c4_counterexample :
    (narrAdjust ⟨5, fun _ => 1⟩ 10).dur = 5 ∧
    (narrAdjust ⟨5, fun _ => 1⟩ 10).dur ≠ 10 ∧
    (compositeAudio [volumex (bgAdjust ⟨3, fun _ => 2⟩ 10) (3 / 10),
        narrAdjust ⟨5, fun _ => 1⟩ 10]).sample 7 = 3 / 5 ∧
    (compositeAudio [volumex (bgAdjust ⟨3, fun _ => 2⟩ 10) (3 / 10),
        narrAdjust ⟨5, fun _ => 1⟩ 10]).dur = 10 := by
  refine ⟨rfl, ?_, ?_, ?_⟩
  · norm_num [narrAdjust, audioSubclip]
  · norm_num [compositeAudio, volumex, bgAdjust, audioLoop, audioSubclip, narrAdjust]
  · norm_num [compositeAudio, volumex, bgAdjust, audioLoop, audioSubclip, narrAdjust]

/-- C4 as amended: the BACKGROUND track is duration-matched exactly as the
claim says (looped when shorter, cut when longer, unchanged at exactly `D`,
always ending with duration `D`); the NARRATION track is only trimmed when
longer than `D` and is otherwise used at its natural duration, so its
composited duration is `min d D`; the composite of the two still has
duration exactly `D`. -/
theorem spec_c4_fixed (bg narr : AudioTrack) (D : ℚ) :
    (bgAdjust bg D).dur = D ∧
    (narrAdjust narr D).dur = min narr.dur D ∧
    (narrAdjust narr D).sample = narr.sample ∧
    (bg.dur = D → bgAdjust bg D = bg) ∧
    (narr.dur = D → narrAdjust narr D = narr) ∧
    (0 ≤ D →
      (compositeAudio [volumex (bgAdjust bg D) (3 / 10), narrAdjust narr D]).dur = D) := by
  refine ⟨bgAdjust_dur bg D, narrAdjust_dur narr D, narrAdjust_sample narr D, ?_, ?_, ?_⟩
  · intro h
    unfold bgAdjust
    rw [if_neg (by rw [h]; exact lt_irrefl D), audioSubclip, ← h]
  · intro h
    unfold narrAdjust
    rw [if_neg (by rw [h]; exact lt_irrefl D)]
  · intro hD
    exact composite_pair_dur bg narr D hD

/-- Witness for the amended C4: at `D = 10`, a 3s background loops to 10s, a
5s narration stays 5s, a track of exactly 10s is unchanged, and the
composite lasts 10s. -/
theorem spec_c4_fixed_witness :
    (bgAdjust ⟨3, fun _ => 2⟩ 10).dur = 10 ∧
    (narrAdjust ⟨5, fun _ => 1⟩ 10).dur = min 5 10 ∧
    narrAdjust ⟨10, fun _ => 1⟩ 10 = ⟨10, fun _ => 1⟩ ∧
    (compositeAudio [volumex (bgAdjust ⟨3, fun _ => 2⟩ 10) (3 / 10),
        narrAdjust ⟨5, fun _ => 1⟩ 10]).dur = 10 :=
  ⟨(spec_c4_fixed ⟨3, fun _ => 2⟩ ⟨5, fun _ => 1⟩ 10).1,
   (spec_c4_fixed ⟨3, fun _ => 2⟩ ⟨5, fun _ => 1⟩ 10).2.1,
   (spec_c4_fixed ⟨3, fun _ => 2⟩ ⟨10, fun _ => 1⟩ 10).2.2.2.2.1 rfl,
   (spec_c4_fixed ⟨3, fun _ => 2⟩ ⟨5, fun _ => 1⟩ 10).2.2.2.2.2 (by norm_num)⟩

/-- C5: when audio composition succeeds, the output audio is exactly the
superposition of the duration-adjusted background attenuated by the fixed
factor `0.3 = 3/10` and the duration-adjusted narration at unity gain; at
every instant of the timeline the mixed sample is the plain sum
`0.3 * background + narration` with no further normalization or clipping
prevention. -/
theorem spec_c5 (env : Env) (req : MergeRequest) (jobId : String)
    (tr : List Ev) (contents : List Nat) (bgc narrc : Nat) (bg narr : AudioTrack)
    (h1 : downloadTrace env req.videos = (tr, .ok contents))
    (h2 : env.fetch req.background_audio = some bgc)
    (h3 : env.fetch req.narration = some narrc)
    (hbg : env.decodeAudio bgc = some bg)
    (hnarr : env.decodeAudio narrc = some narr)
    (hne : contents.filterMap env.decodeVideo ≠ [])
    (h6 : env.encodeOk = true) :
    ∃ o, (process_videos env req jobId).outcome = .ok o ∧
      o.audio = some (compositeAudio
        [volumex (bgAdjust bg (segsDuration o.video)) (3 / 10),
         narrAdjust narr (segsDuration o.video)]) ∧
      ∀ t, 0 ≤ t → t < segsDuration o.video →
        (compositeAudio
          [volumex (bgAdjust bg (segsDuration o.video)) (3 / 10),
           narrAdjust narr (segsDuration o.video)]).sample t =
        (3 / 10) * (bgAdjust bg (segsDuration o.video)).sample t +
          (if t < min narr.dur (segsDuration o.video) then narr.sample t else 0) := by
  rcases hdec : decodeTrace env 0 contents with ⟨dtr, dec⟩
  have hclips := decodeTrace_clips env contents 0
  rw [hdec] at hclips
  cases dec with
  | nil => exact absurd (by simpa using hclips.symm) hne
  | cons d ds =>
    have hrun := process_videos_run_ok env req jobId tr contents bgc narrc dtr d ds
      h1 h2 h3 hdec h6
    refine ⟨_, by rw [hrun], ?_, ?_⟩
    · show (audioPhase env bgc narrc _).2 = _
      simp [audioPhase, hbg, hnarr]
    · intro t ht hlt
      exact composite_pair_sample bg narr _ t ht hlt

/-- Witness for C5 at `envA`/`reqA`: timeline duration 7, background
`⟨3, 2⟩`, narration `⟨5, 1⟩`. -/
theorem spec_c5_witness :
    ∃ o, (process_videos envA reqA "j").outcome = .ok o ∧
      o.audio = some (compositeAudio
        [volumex (bgAdjust ⟨3, fun _ => 2⟩ (segsDuration o.video)) (3 / 10),
         narrAdjust ⟨5, fun _ => 1⟩ (segsDuration o.video)]) ∧
      ∀ t, 0 ≤ t → t < segsDuration o.video →
        (compositeAudio
          [volumex (bgAdjust ⟨3, fun _ => 2⟩ (segsDuration o.video)) (3 / 10),
           narrAdjust ⟨5, fun _ => 1⟩ (segsDuration o.video)]).sample t =
        (3 / 10) * (bgAdjust ⟨3, fun _ => 2⟩ (segsDuration o.video)).sample t +
          (if t < min (AudioTrack.mk 5 (fun _ => 1)).dur (segsDuration o.video)
            then (AudioTrack.mk 5 (fun _ => 1)).sample t else 0) :=
  spec_c5 envA reqA "j" [Ev.fetched "v0", Ev.fetched "v1"] [0, 1] 10 11
    ⟨3, fun _ => 2⟩ ⟨5, fun _ => 1⟩
    (by decide) (by decide) (by decide) rfl rfl (by decide) (by decide)

/-- C6 (code bug): both process functions do remove their own job directory
on every exit path (first two conjuncts), but the `/merge-with-file`
endpoint creates an additional job directory for the uploaded narration and
leaves it behind when the pipeline fails: with the first video download
failing, the endpoint answers with the fetch error, the inner pipeline
directory is gone, yet the endpoint directory still exists. -/
theorem spec_c6_bug :
    (∀ env req jobId, (process_videos env req jobId).jobDirExists = false) ∧
    (∀ env req nc jobId,
      (process_videos_with_local_narration env req nc jobId).jobDirExists = false) ∧
    (merge_videos_with_file envD ["v0"] "bg" 600 11 "p").response =
      .error (.fetchFailure "v0") ∧
    (merge_videos_with_file envD ["v0"] "bg" 600 11 "p").inner.jobDirExists = false ∧
    (merge_videos_with_file envD ["v0"] "bg" 600 11 "p").endpointDirExists = true := by
  refine ⟨?_, ?_, ?_, ?_, ?_⟩
  · intro env req jobId
    simp only [process_videos]
    split
    · rfl
    · split
      · rfl
      · split
        · rfl
        · split
          · rfl
          · split <;> rfl
  · intro env req nc jobId
    simp only [process_videos_with_local_narration]
    split
    · rfl
    · split
      · rfl
      · split
        · rfl
        · split <;> rfl
  · have h := local_narration_run_fetchVideoErr envD ⟨["v0"], "bg", "", 600⟩ 11 "p" [] "v0"
      (by decide)
    simp only [merge_videos_with_file, h]
  · have h := local_narration_run_fetchVideoErr envD ⟨["v0"], "bg", "", 600⟩ 11 "p" [] "v0"
      (by decide)
    simp only [merge_videos_with_file, h]
  · have h := local_narration_run_fetchVideoErr envD ⟨["v0"], "bg", "", 600⟩ 11 "p" [] "v0"
      (by decide)
    simp only [merge_videos_with_file, h]

lemma process_videos_ok_inv (env : Env) (req : MergeRequest) (jobId : String)
    (hok : exceptIsOk (process_videos env req jobId).outcome = true) :
    ∃ tr contents bgc narrc dtr d ds,
      downloadTrace env req.videos = (tr, .ok contents) ∧
      env.fetch req.background_audio = some bgc ∧
      env.fetch req.narration = some narrc ∧
      decodeTrace env 0 contents = (dtr, d :: ds) ∧
      env.encodeOk = true := by
  rcases hdl : downloadTrace env req.videos with ⟨tr, res⟩
  cases res with
  | error u =>
    rw [process_videos_run_fetchVideoErr env req jobId tr u hdl] at hok
    exact absurd hok (by simp [exceptIsOk])
  | ok contents =>
    cases hbg : env.fetch req.background_audio with
    | none =>
      rw [process_videos_run_fetchBgErr env req jobId tr contents hdl hbg] at hok
      exact absurd hok (by simp [exceptIsOk])
    | some bgc =>
      cases hna : env.fetch req.narration with
      | none =>
        rw [process_videos_run_fetchNarrErr env req jobId tr contents bgc hdl hbg hna] at hok
        exact absurd hok (by simp [exceptIsOk])
      | some narrc =>
        rcases hdec : decodeTrace env 0 contents with ⟨dtr, dec⟩
        cases dec with
        | nil =>
          rw [process_videos_run_noUsable env req jobId tr contents bgc narrc dtr
            hdl hbg hna hdec] at hok
          exact absurd hok (by simp [exceptIsOk])
        | cons d ds =>
          cases henc : env.encodeOk with
          | false =>
            rw [process_videos_run_encodeErr env req jobId tr contents bgc narrc dtr d ds
              hdl hbg hna hdec henc] at hok
            exact absurd hok (by simp [exceptIsOk])
          | true =>
            exact ⟨tr, contents, bgc, narrc, dtr, d, ds, rfl, rfl, rfl, hdec, rfl⟩

/-- C7 counterexample: a fully successful run of the pipeline opens both
audio handles but never closes either of them — the code closes only
`final_video` and the entries of `video_clips` (lines 171-174), so the
claim fails for audio-track handles. -/
theorem spec_c7_counterexample :
    exceptIsOk (process_videos envA reqA "j").outcome = true ∧
    Ev.openAudioBg ∈ (process_videos envA reqA "j").trace ∧
    Ev.openAudioNarr ∈ (process_videos envA reqA "j").trace ∧
    Ev.closeAudioBg ∉ (process_videos envA reqA "j").trace ∧
    Ev.closeAudioNarr ∉ (process_videos envA reqA "j").trace := by
  refine ⟨rfl, by decide, by decide, by decide, by decide⟩

/-- C7 as amended: on every successful run, every opened VIDEO handle is
closed, and every such close happens after the output file is written and
before the job directory is removed; audio-track handles are not closed. -/
theorem spec_c7_fixed (env : Env) (req : MergeRequest) (jobId : String)
    (hok : exceptIsOk (process_videos env req jobId).outcome = true) :
    (∀ i, Ev.openVideo i ∈ (process_videos env req jobId).trace →
      Ev.closeVideo i ∈ (process_videos env req jobId).trace) ∧
    (∀ i, Ev.closeVideo i ∈ (process_videos env req jobId).trace →
      ∃ fn, Precedes (Ev.wrote fn) (Ev.closeVideo i) (process_videos env req jobId).trace ∧
        Precedes (Ev.closeVideo i) Ev.removeDir (process_videos env req jobId).trace) := by
  rcases process_videos_ok_inv env req jobId hok with
    ⟨tr, contents, bgc, narrc, dtr, d, ds, hdl, hbg, hna, hdec, henc⟩
  have hrun := process_videos_run_ok env req jobId tr contents bgc narrc dtr d ds
    hdl hbg hna hdec henc
  have htr : ∀ e ∈ tr, ∃ u, e = Ev.fetched u := by
    have h := downloadTrace_fst_fetch env req.videos
    rw [hdl] at h
    exact h
  have hdtr : ∀ e ∈ dtr, (∃ k, e = Ev.openVideo k) ∨ (∃ k, e = Ev.skipVideo k) := by
    have h := decodeTrace_fst_shape env contents 0
    rw [hdec] at h
    exact h
  rw [hrun]
  constructor
  · intro i hi
    have hDtr : Ev.openVideo i ∈ dtr := by
      rcases List.mem_append.mp hi with hA | hB
      · rcases List.mem_cons.mp hA with h0 | hA2
        · exact absurd h0 (by simp)
        rcases List.mem_append.mp hA2 with hTr | hA3
        · rcases htr _ hTr with ⟨u, hu⟩
          exact absurd hu (by simp)
        rcases List.mem_append.mp hA3 with hFF | hDtr
        · simp at hFF
        · exact hDtr
      · rcases List.mem_append.mp hB with hAp | hB2
        · rcases audioPhase_fst_shape env bgc narrc _ _ hAp with h | h | h <;> simp at h
        rcases List.mem_cons.mp hB2 with h | hB3
        · simp at h
        rcases List.mem_cons.mp hB3 with h | hB4
        · simp at h
        rcases List.mem_append.mp hB4 with hCl | hRem
        · rcases List.mem_map.mp hCl with ⟨p, _, hp⟩
          simp at hp
        · simp at hRem
    have hIdx : i ∈ ((d :: ds)).map (·.1) := by
      have h := decodeTrace_open_mem env contents 0 i (by rw [hdec]; exact hDtr)
      rw [hdec] at h
      exact h
    have hClm : Ev.closeVideo i ∈ (d :: ds).map (fun p => Ev.closeVideo p.1) := by
      rcases List.mem_map.mp hIdx with ⟨p, hp, hpi⟩
      exact List.mem_map.mpr ⟨p, hp, by rw [hpi]⟩
    exact List.mem_append.mpr (Or.inr (List.mem_append.mpr (Or.inr
      (List.mem_cons_of_mem _ (List.mem_cons_of_mem _
        (List.mem_append.mpr (Or.inl hClm)))))))
  · intro i hi
    have hCl : Ev.closeVideo i ∈ (d :: ds).map (fun p => Ev.closeVideo p.1) := by
      rcases List.mem_append.mp hi with hA | hB
      · rcases List.mem_cons.mp hA with h0 | hA2
        · exact absurd h0 (by simp)
        rcases List.mem_append.mp hA2 with hTr | hA3
        · rcases htr _ hTr with ⟨u, hu⟩
          exact absurd hu (by simp)
        rcases List.mem_append.mp hA3 with hFF | hDtr2
        · simp at hFF
        · rcases hdtr _ hDtr2 with ⟨k, hk⟩ | ⟨k, hk⟩ <;> simp at hk
      · rcases List.mem_append.mp hB with hAp | hB2
        · rcases audioPhase_fst_shape env bgc narrc _ _ hAp with h | h | h <;> simp at h
        rcases List.mem_cons.mp hB2 with h | hB3
        · simp at h
        rcases List.mem_cons.mp hB3 with h | hB4
        · simp at h
        rcases List.mem_append.mp hB4 with hCl | hRem
        · exact hCl
        · simp at hRem
    rcases List.append_of_mem hCl with ⟨l1, l2, hsplit⟩
    refine ⟨"merged_video_" ++ jobId ++ ".mp4", ?_, ?_⟩
    · refine ⟨(Ev.dirCreated :: (tr ++
          ([Ev.fetched req.background_audio, Ev.fetched req.narration] ++ dtr))) ++
          (audioPhase env bgc narrc
            (segsDuration (buildTimeline ((d :: ds).map (·.2)) (req.max_duration : ℚ)))).1,
        Ev.closeFinal :: l1, l2 ++ [Ev.removeDir], ?_⟩
      rw [hsplit]
      simp [List.append_assoc, List.cons_append]
    · refine ⟨(Ev.dirCreated :: (tr ++
          ([Ev.fetched req.background_audio, Ev.fetched req.narration] ++ dtr))) ++
          ((audioPhase env bgc narrc
            (segsDuration (buildTimeline ((d :: ds).map (·.2)) (req.max_duration : ℚ)))).1 ++
            (Ev.wrote ("merged_video_" ++ jobId ++ ".mp4") :: Ev.closeFinal :: l1)),
        l2, [], ?_⟩
      rw [hsplit]
      simp [List.append_assoc, List.cons_append]

/-- Witness for the amended C7 at `envA`/`reqA`: the handle of the first
clip is closed, after the write and before the directory removal. -/
theorem spec_c7_fixed_witness :
    Ev.closeVideo 0 ∈ (process_videos envA reqA "j").trace ∧
    ∃ fn, Precedes (Ev.wrote fn) (Ev.closeVideo 0) (process_videos envA reqA "j").trace ∧
      Precedes (Ev.closeVideo 0) Ev.removeDir (process_videos envA reqA "j").trace := by
  have h := spec_c7_fixed envA reqA "j" rfl
  have hm := h.1 0 (by decide)
  exact ⟨hm, h.2 0 hm⟩

/-- C8 counterexample: a raw request that omits the background-audio field
is REJECTED by validation of `MergeRequest` (the field has no default), so
"zero-or-one background-audio locator" does not hold: exactly one is
required, and there is no mix-volume field at all. -/
theorem spec_c8_counterexample :
    parseMergeRequest ⟨some ["v0"], none, some "narr", none⟩ = none := rfl

/-- C8 as amended: a merge request consists of an ordered sequence of video
locators, a REQUIRED background-audio locator, a narration locator, and a
maximum-duration bound that defaults to 600; there is no mix-volume field
(the background gain is fixed in the pipeline), and the upload flow carries
the narration as bytes into `process_videos_with_local_narration`. -/
theorem spec_c8_fixed :
    (∀ raw : RawMergeRequest,
      (parseMergeRequest raw).isSome = true ↔
        raw.videos.isSome = true ∧ raw.background_audio.isSome = true ∧
          raw.narration.isSome = true) ∧
    (∀ vs bg narr, parseMergeRequest ⟨some vs, some bg, some narr, none⟩ =
      some ⟨vs, bg, narr, 600⟩) ∧
    (∀ vs bg narr dur, parseMergeRequest ⟨some vs, some bg, some narr, some dur⟩ =
      some ⟨vs, bg, narr, dur⟩) ∧
    (∀ env videos bg md nc pj,
      (merge_videos_with_file env videos bg md nc pj).inner =
        process_videos_with_local_narration env ⟨videos, bg, "", md⟩ nc pj) := by
  refine ⟨?_, fun vs bg narr => rfl, fun vs bg narr dur => rfl, ?_⟩
  · intro raw
    rcases raw with ⟨_ | vs, _ | bg, _ | narr, m⟩ <;> simp [parseMergeRequest]
  · intro env videos bg md nc pj
    simp only [merge_videos_with_file]
    split <;> rfl

/-- Witness for the amended C8: a raw request with all three required fields
present parses successfully. -/
theorem spec_c8_fixed_witness :
    (parseMergeRequest ⟨some ["v"], some "b", some "n", none⟩).isSome = true :=
  (spec_c8_fixed.1 ⟨some ["v"], some "b", some "n", none⟩).mpr ⟨rfl, rfl, rfl⟩

/-- C9: the pipeline is content-deterministic — two runs over the same
environment and request but different generated job identifiers have the
same outcome up to the output filename (same timeline, same audio, same
cleanup, same events), and the filename differs only through the job
identifier. -/
theorem spec_c9 (env : Env) (req : MergeRequest) (j1 j2 : String) :
    contentOutcome (process_videos env req j1) = contentOutcome (process_videos env req j2) ∧
    (process_videos env req j1).jobDirExists = (process_videos env req j2).jobDirExists ∧
    (process_videos env req j1).trace.map scrub = (process_videos env req j2).trace.map scrub ∧
    (∀ o, (process_videos env req j1).outcome = .ok o →
      o.filename = "merged_video_" ++ j1 ++ ".mp4") := by
  rcases hdl : downloadTrace env req.videos with ⟨tr, res⟩
  cases res with
  | error u =>
    rw [process_videos_run_fetchVideoErr env req j1 tr u hdl,
      process_videos_run_fetchVideoErr env req j2 tr u hdl]
    exact ⟨rfl, rfl, rfl, fun o ho => absurd ho (by simp)⟩
  | ok contents =>
    cases hbg : env.fetch req.background_audio with
    | none =>
      rw [process_videos_run_fetchBgErr env req j1 tr contents hdl hbg,
        process_videos_run_fetchBgErr env req j2 tr contents hdl hbg]
      exact ⟨rfl, rfl, rfl, fun o ho => absurd ho (by simp)⟩
    | some bgc =>
      cases hna : env.fetch req.narration with
      | none =>
        rw [process_videos_run_fetchNarrErr env req j1 tr contents bgc hdl hbg hna,
          process_videos_run_fetchNarrErr env req j2 tr contents bgc hdl hbg hna]
        exact ⟨rfl, rfl, rfl, fun o ho => absurd ho (by simp)⟩
      | some narrc =>
        rcases hdec : decodeTrace env 0 contents with ⟨dtr, dec⟩
        cases dec with
        | nil =>
          rw [process_videos_run_noUsable env req j1 tr contents bgc narrc dtr hdl hbg hna hdec,
            process_videos_run_noUsable env req j2 tr contents bgc narrc dtr hdl hbg hna hdec]
          exact ⟨rfl, rfl, rfl, fun o ho => absurd ho (by simp)⟩
        | cons d ds =>
          cases henc : env.encodeOk with
          | false =>
            rw [process_videos_run_encodeErr env req j1 tr contents bgc narrc dtr d ds
              hdl hbg hna hdec henc,
              process_videos_run_encodeErr env req j2 tr contents bgc narrc dtr d ds
              hdl hbg hna hdec henc]
            exact ⟨rfl, rfl, rfl, fun o ho => absurd ho (by simp)⟩
          | true =>
            rw [process_videos_run_ok env req j1 tr contents bgc narrc dtr d ds
              hdl hbg hna hdec henc,
              process_videos_run_ok env req j2 tr contents bgc narrc dtr d ds
              hdl hbg hna hdec henc]
            refine ⟨rfl, rfl, ?_, ?_⟩
            · simp [scrub, List.map_append, List.map_cons]
            · intro o ho
              cases ho
              rfl

/-- Witness for C9: the filename of the successful run with job id `"a"`. -/
theorem spec_c9_witness :
    ∃ o, (process_videos envA reqA "a").outcome = .ok o ∧
      o.filename = "merged_video_" ++ "a" ++ ".mp4" := by
  rcases process_videos_ok_inv envA reqA "a" rfl with
    ⟨tr, contents, bgc, narrc, dtr, d, ds, hdl, hbg, hna, hdec, henc⟩
  have hrun := process_videos_run_ok envA reqA "a" tr contents bgc narrc dtr d ds
    hdl hbg hna hdec henc
  exact ⟨_, by rw [hrun], (spec_c9 envA reqA "a" "b").2.2.2 _ (by rw [hrun])⟩

lemma downloadTrace_filter_nonfetch (env : Env) (urls : List String) :
    (downloadTrace env urls).1.filter (fun e => !evIsFetch e) = [] := by
  rw [List.filter_eq_nil_iff]
  intro e he
  rcases downloadTrace_fst_fetch env urls e he with ⟨u, rfl⟩
  simp [evIsFetch]

lemma decodeTrace_filter_nonfetch (env : Env) (cs : List Nat) (i : Nat) :
    (decodeTrace env i cs).1.filter (fun e => !evIsFetch e) = (decodeTrace env i cs).1 := by
  rw [List.filter_eq_self]
  intro e he
  rcases decodeTrace_fst_shape env cs i e he with ⟨k, rfl⟩ | ⟨k, rfl⟩ <;> simp [evIsFetch]

lemma audioPhase_filter_nonfetch (env : Env) (bgc narrc : Nat) (D : ℚ) :
    (audioPhase env bgc narrc D).1.filter (fun e => !evIsFetch e) =
      (audioPhase env bgc narrc D).1 := by
  rw [List.filter_eq_self]
  intro e he
  rcases audioPhase_fst_shape env bgc narrc D e he with rfl | rfl | rfl <;> simp [evIsFetch]

/-- C10: whenever the narration URL of a request resolves to some content,
`process_videos` on that request and `process_videos_with_local_narration`
on the same request with that content already on disk produce the same
outcome (same timeline, audio, filename), the same cleanup state, and the
same event trace once download events — the only difference in how the
narration is materialized — are set aside. -/
theorem spec_c10 (env : Env) (req : MergeRequest) (nc : Nat) (jobId : String)
    (hn : env.fetch req.narration = some nc) :
    (process_videos env req jobId).outcome =
      (process_videos_with_local_narration env req nc jobId).outcome ∧
    (process_videos env req jobId).jobDirExists =
      (process_videos_with_local_narration env req nc jobId).jobDirExists ∧
    (process_videos env req jobId).trace.filter (fun e => !evIsFetch e) =
      (process_videos_with_local_narration env req nc jobId).trace.filter
        (fun e => !evIsFetch e) := by
  rcases hdl : downloadTrace env req.videos with ⟨tr, res⟩
  have htrf : tr.filter (fun e => !evIsFetch e) = [] := by
    have h := downloadTrace_filter_nonfetch env req.videos
    rw [hdl] at h
    exact h
  cases res with
  | error u =>
    rw [process_videos_run_fetchVideoErr env req jobId tr u hdl,
      local_narration_run_fetchVideoErr env req nc jobId tr u hdl]
    exact ⟨rfl, rfl, rfl⟩
  | ok contents =>
    cases hbg : env.fetch req.background_audio with
    | none =>
      rw [process_videos_run_fetchBgErr env req jobId tr contents hdl hbg,
        local_narration_run_fetchBgErr env req nc jobId tr contents hdl hbg]
      exact ⟨rfl, rfl, rfl⟩
    | some bgc =>
      rcases hdec : decodeTrace env 0 contents with ⟨dtr, dec⟩
      have hdtrf : dtr.filter (fun e => !evIsFetch e) = dtr := by
        have h := decodeTrace_filter_nonfetch env contents 0
        rw [hdec] at h
        exact h
      cases dec with
      | nil =>
        rw [process_videos_run_noUsable env req jobId tr contents bgc nc dtr hdl hbg hn hdec,
          local_narration_run_noUsable env req nc jobId tr contents bgc dtr hdl hbg hdec]
        refine ⟨rfl, rfl, ?_⟩
        simp [List.filter_append, List.filter_cons, htrf, hdtrf, evIsFetch]
      | cons d ds =>
        cases henc : env.encodeOk with
        | false =>
          rw [process_videos_run_encodeErr env req jobId tr contents bgc nc dtr d ds
            hdl hbg hn hdec henc,
            local_narration_run_encodeErr env req nc jobId tr contents bgc dtr d ds
            hdl hbg hdec henc]
          refine ⟨rfl, rfl, ?_⟩
          simp [List.filter_append, List.filter_cons, htrf, hdtrf, evIsFetch,
            audioPhase_filter_nonfetch]
        | true =>
          rw [process_videos_run_ok env req jobId tr contents bgc nc dtr d ds
            hdl hbg hn hdec henc,
            local_narration_run_ok env req nc jobId tr contents bgc dtr d ds
            hdl hbg hdec henc]
          refine ⟨rfl, rfl, ?_⟩
          have hclf : ((d :: ds).map (fun p => Ev.closeVideo p.1)).filter
              (fun e => !evIsFetch e) = (d :: ds).map (fun p => Ev.closeVideo p.1) := by
            rw [List.filter_eq_self]
            intro e he
            rcases List.mem_map.mp he with ⟨p, _, rfl⟩
            simp [evIsFetch]
          simp [List.filter_append, List.filter_cons, htrf, hdtrf, hclf, evIsFetch,
            audioPhase_filter_nonfetch]

/-- Witness for C10 at `envA`/`reqA`: the URL flow and the local-narration
flow with content `11` produce equal outcomes. -/
theorem spec_c10_witness :
    (process_videos envA reqA "j").outcome =
      (process_videos_with_local_narration envA reqA 11 "j").outcome :=
  (spec_c10 envA reqA 11 "j" rfl).1

end MovieMerge
